import Mathlib

/-
Shallow embedding of the in-memory `store` package of GEEK_back
(src/store/store.go) and verification of its specification.

Modelling conventions:
  * Go `uint64` values are modelled as `Nat`.  All counters reachable at run
    time stay far below 2^64, so plain `Nat` arithmetic agrees with `uint64`
    arithmetic everywhere except in `CreateAnswer`, where the expression
    `int(questionPos-1)` really does underflow for `questionPos = 0`; there
    the wrap-around is modelled explicitly (`% 2^64` and the `int64`
    reinterpretation).
  * `time.Time` / `time.Duration` are modelled as `Nat` nanosecond ticks;
    `time.Now()` becomes an explicit `now` argument of each operation.
  * Go maps are modelled as association lists (`findKey` / `setKey`);
    `setKey` overwrites an existing key in place and appends a new key at
    the end, so the list length equals Go's `len(map)`.
  * Randomness (`rand.Shuffle`) is an explicit oracle `rnd : Nat → Nat`;
    `rand.Intn (i+1)` is modelled as `rnd i % (i+1)`, which ranges over
    exactly the values the Go generator can produce.
  * `bcrypt.GenerateFromPassword` is an oracle argument `hashed` (it cannot
    fail for `bcrypt.DefaultCost`); `uuid.NewString` is an oracle `token`.
  * A fallible Go operation returns `Res α`: `ok` with the value and the new
    store, `err` with the error message and the (unchanged or partially
    changed) store, or `panicked` for a run-time panic (out-of-range slice
    index, nil dereference), again carrying the store as mutated so far.
-/

namespace GeekBack

set_option maxRecDepth 100000

/-- One question of a test (store.go `Question`). -/
structure Question where
  ID : Nat
  Name : String
  Text : String
  TrueAnswer : String
  MaxScore : Nat
deriving DecidableEq

/-- A test definition (store.go `Test`); `TimeLimit` is a duration in
nanosecond ticks, `NumOfQuestions` the number of questions to select per
attempt. -/
structure Test where
  ID : Nat
  Name : String
  Description : String
  TimeLimit : Nat
  MaxScore : Nat
  Questions : List Question
  NumOfQuestions : Nat
deriving DecidableEq

/-- A user account (store.go `User`). -/
structure User where
  ID : Nat
  Email : String
  Password : String
  CreatedAt : Nat
deriving DecidableEq

/-- An answer slot of an attempt (store.go `Answer`). -/
structure Answer where
  ID : Nat
  QuestionID : Nat
  Text : String
  RightOrNot : Bool
  CreatedAt : Nat
deriving DecidableEq

/-- A test attempt (store.go `Attempt`). -/
structure Attempt where
  ID : Nat
  UserID : Nat
  TestID : Nat
  Status : String
  Answers : List Answer
  Result : Nat
  StartedAt : Nat
  FinishedAt : Nat
deriving DecidableEq

/-- An AI conversation binding (store.go `AIThread`). -/
structure AIThread where
  AttemptID : Nat
  ThreadID : String
  Status : String
  CreatedAt : Nat
deriving DecidableEq

/-- An access code (store.go `AccessCode`); `MaxUses = none` means
unlimited, `ExpiresAt = none` means non-expiring. -/
structure AccessCode where
  Code : String
  TestID : Nat
  MaxUses : Option Nat
  UsedCount : Nat
  ExpiresAt : Option Nat
  CreatedAt : Nat
deriving DecidableEq

/-- The whole store (store.go `Store`), maps modelled as association
lists. -/
structure Store where
  users : List (Nat × User)
  usersByEmail : List (String × Nat)
  tests : List (Nat × Test)
  attempts : List (Nat × Attempt)
  sessions : List (String × Nat)
  aiThreads : List (Nat × AIThread)
  accessCodes : List (String × AccessCode)
  nextUserID : Nat
deriving DecidableEq

/-- Outcome of a store operation: success, Go error return, or run-time
panic.  Each outcome carries the store as left behind by the operation. -/
inductive Res (α : Type) where
  | ok : α → Store → Res α
  | err : String → Store → Res α
  | panicked : Store → Res α
deriving DecidableEq

/-- The store an operation leaves behind, whatever the outcome. -/
def Res.state : Res α → Store
  | .ok _ s => s
  | .err _ s => s
  | .panicked s => s

/-- Map lookup (Go `m[k]` with the `ok` flag). -/
def findKey [DecidableEq κ] (k : κ) : List (κ × ν) → Option ν
  | [] => none
  | (k', v) :: rest => if k' = k then some v else findKey k rest

/-- Map write (Go `m[k] = v`): overwrite in place, or append a new entry. -/
def setKey [DecidableEq κ] (k : κ) (v : ν) : List (κ × ν) → List (κ × ν)
  | [] => [(k, v)]
  | (k', v') :: rest => if k' = k then (k, v) :: rest else (k', v') :: setKey k v rest

/-- Map delete (Go `delete(m, k)`). -/
def eraseKey [DecidableEq κ] (k : κ) : List (κ × ν) → List (κ × ν)
  | [] => []
  | (k', v') :: rest => if k' = k then rest else (k', v') :: eraseKey k rest

theorem findKey_setKey_self [DecidableEq κ] (k : κ) (v : ν) (m : List (κ × ν)) :
    findKey k (setKey k v m) = some v := by
  induction m with
  | nil => simp [findKey, setKey]
  | cons p rest ih =>
    obtain ⟨k', v'⟩ := p
    by_cases h : k' = k <;> simp [findKey, setKey, h, ih]

theorem findKey_setKey_ne [DecidableEq κ] {k k' : κ} (hne : k ≠ k') (v : ν)
    (m : List (κ × ν)) : findKey k' (setKey k v m) = findKey k' m := by
  induction m with
  | nil => simp [findKey, setKey, hne]
  | cons p rest ih =>
    obtain ⟨k'', v''⟩ := p
    by_cases h : k'' = k
    · subst h
      simp [findKey, setKey, hne]
    · simp only [setKey, if_neg h, findKey]
      by_cases h' : k'' = k' <;> simp [h', ih]

/-- Swap two positions of a list (the callback `rand.Shuffle` is given in
`getRandomQuestions`: `allQuestions[i], allQuestions[j] =
allQuestions[j], allQuestions[i]`). -/
def listSwap (l : List α) (i j : Nat) : List α :=
  if h : i < l.length ∧ j < l.length then
    (l.set i (l.get ⟨j, h.2⟩)).set j (l.get ⟨i, h.1⟩)
  else l

theorem length_listSwap (l : List α) (i j : Nat) :
    (listSwap l i j).length = l.length := by
  unfold listSwap
  split <;> simp

theorem listSwap_perm [DecidableEq α] (l : List α) (i j : Nat) :
    (listSwap l i j).Perm l := by
  unfold listSwap
  split
  · next h =>
    obtain ⟨hi, hj⟩ := h
    have hgj : l.get ⟨j, hj⟩ = l[j] := rfl
    have hgi : l.get ⟨i, hi⟩ = l[i] := rfl
    rw [hgi, hgj, List.perm_iff_count]
    intro b
    have hj' : j < (l.set i l[j]).length := by simpa using hj
    have hset_j : (l.set i l[j])[j] = l[j] := by
      by_cases hij : i = j
      · subst hij
        exact List.getElem_set_self hj'
      · rw [List.getElem_set_ne hij]
    rw [List.count_set _ _ _ _ hj', hset_j, List.count_set _ _ _ _ hi]
    by_cases h1 : l[i] = b
    · have hge : 1 ≤ List.count b l :=
        h1 ▸ List.count_pos_iff.mpr (List.getElem_mem hi)
      by_cases h2 : l[j] = b <;> simp [h1, h2] <;> omega
    · by_cases h2 : l[j] = b <;> simp [h1, h2] <;> omega
  · exact List.Perm.refl l

/-- Fisher-Yates downward pass of Go's `rand.Shuffle`: for `i = n-1` down
to `1`, swap position `i` with position `rnd i % (i+1)`. -/
def shuffleAux (rnd : Nat → Nat) : Nat → List α → List α
  | 0, l => l
  | i + 1, l => shuffleAux rnd i (listSwap l (i + 1) (rnd (i + 1) % (i + 2)))

/-- Go `r.Shuffle(len(l), swap)` on a list. -/
def shuffleList (l : List α) (rnd : Nat → Nat) : List α :=
  shuffleAux rnd (l.length - 1) l

theorem shuffleAux_perm [DecidableEq α] (rnd : Nat → Nat) (n : Nat) (l : List α) :
    (shuffleAux rnd n l).Perm l := by
  induction n generalizing l with
  | zero => exact List.Perm.refl l
  | succ i ih =>
    exact (ih _).trans (listSwap_perm _ _ _)

theorem shuffleList_perm [DecidableEq α] (l : List α) (rnd : Nat → Nat) :
    (shuffleList l rnd).Perm l :=
  shuffleAux_perm rnd _ l

theorem length_shuffleList [DecidableEq α] (l : List α) (rnd : Nat → Nat) :
    (shuffleList l rnd).length = l.length :=
  (shuffleList_perm l rnd).length_eq

/-- Fresh empty store (store.go `NewStore`). -/
def NewStore : Store :=
  { users := [], usersByEmail := [], tests := [], attempts := [], sessions := []
    aiThreads := [], accessCodes := [], nextUserID := 1 }

/-- Account creation (store.go `CreateUser`).  `hashed` is the bcrypt digest
oracle; hashing itself cannot fail for `bcrypt.DefaultCost`. -/
def CreateUser (s : Store) (email _password hashed : String) (now : Nat) : Res User :=
  if (findKey email s.usersByEmail).isSome then
    .err "user already exists" s
  else
    let user : User := { ID := s.nextUserID, Email := email, Password := hashed, CreatedAt := now }
    .ok user { s with
      users := setKey user.ID user s.users
      usersByEmail := setKey email user.ID s.usersByEmail
      nextUserID := s.nextUserID + 1 }

/-- Shuffle the given question slice in place and take a clamped prefix of it
(store.go `getRandomQuestions`).  Returns the reordered full list (the
caller's slice is mutated!) together with the selected prefix. -/
def getRandomQuestions (allQuestions : List Question) (numOfQuestions : Nat)
    (rnd : Nat → Nat) : List Question × List Question :=
  let shuffled := shuffleList allQuestions rnd
  let k := if numOfQuestions > shuffled.length then shuffled.length else numOfQuestions
  (shuffled, shuffled.take k)

/-- Attempt creation (store.go `CreateAttempt`).  Note that the in-place
shuffle reorders the stored test's `Questions`, and that the operation
increments `nextUserID` (not an attempt counter). -/
def CreateAttempt (s : Store) (testID userID now : Nat) (rnd : Nat → Nat) : Res Attempt :=
  match findKey testID s.tests with
  | none => .err "test not found" s
  | some test =>
    let pair := getRandomQuestions test.Questions test.NumOfQuestions rnd
    let sMut := { s with tests := setKey testID { test with Questions := pair.1 } s.tests }
    let attempt : Attempt :=
      { ID := s.attempts.length + 1, UserID := userID, TestID := testID
        Status := "started"
        Answers := pair.2.map fun q =>
          { ID := q.ID, QuestionID := q.ID, Text := "", RightOrNot := false, CreatedAt := 0 }
        Result := 0, StartedAt := now, FinishedAt := 0 }
    .ok attempt { sMut with
      attempts := setKey attempt.ID attempt sMut.attempts
      nextUserID := sMut.nextUserID + 1 }

/-- Session creation (store.go `CreateSession`); `token` is the
`uuid.NewString` oracle. -/
def CreateSession (s : Store) (userID : Nat) (token : String) : String × Store :=
  (token, { s with sessions := setKey token userID s.sessions })

/-- Session deletion (store.go `DeleteSession`), idempotent. -/
def DeleteSession (s : Store) (token : String) : Store :=
  { s with sessions := eraseKey token s.sessions }

/-- Session lookup (store.go `GetUserBySession`). -/
def GetUserBySession (s : Store) (token : String) : Option User :=
  match findKey token s.sessions with
  | none => none
  | some userID => findKey userID s.users

/-- Login check (store.go `AuthenticateUser`); `verify` is the bcrypt
comparison oracle.  Both failure modes return the same error. -/
def AuthenticateUser (s : Store) (email password : String)
    (verify : String → String → Bool) : Res User :=
  match findKey email s.usersByEmail with
  | none => .err "invalid email or password" s
  | some userID =>
    match findKey userID s.users with
    | none => .panicked s
    | some user =>
      if verify user.Password password then .ok user s
      else .err "invalid email or password" s

/-- Test lookup (store.go `TestById`). -/
def TestById (s : Store) (testId : Nat) : Option Test :=
  findKey testId s.tests

/-- Question lookup inside one test (store.go `findQuestionByID`). -/
def findQuestionByID (s : Store) (testID questionID : Nat) : Option Question :=
  match findKey testID s.tests with
  | none => none
  | some test => test.Questions.find? fun q => q.ID == questionID

/-- Reconstruction of an attempt's question list (store.go
`GetAttemptQuestions`). -/
def GetAttemptQuestions (s : Store) (attemptId : Nat) : Except String (List Question) :=
  match findKey attemptId s.attempts with
  | none => .error "attempt not found"
  | some attempt =>
    match attempt.Answers.mapM (fun a => findQuestionByID s attempt.TestID a.QuestionID) with
    | none => .error "question not found for answer"
    | some questions => .ok questions

/-- Deadline check (store.go `CheckDeadline`): `none` means within the
deadline, `some e` the error message. -/
def CheckDeadline (s : Store) (attemptID now : Nat) : Option String :=
  match findKey attemptID s.attempts with
  | none => some "attempt not found"
  | some attempt =>
    match findKey attempt.TestID s.tests with
    | none => some "test not found"
    | some test =>
      if 0 < test.TimeLimit ∧ attempt.StartedAt + test.TimeLimit < now then
        some "test attempt timeout"
      else none

/-- Reinterpret a `uint64` bit pattern as Go's 64-bit signed `int`. -/
def int64OfUInt64 (x : Nat) : Int :=
  if x < 2 ^ 63 then (x : Int) else (x : Int) - (2 ^ 64 : Int)

/-- Go `questionPos - 1` computed on `uint64`: wraps to `2^64 - 1` when
`questionPos = 0`. -/
def u64Sub1 (p : Nat) : Nat := (p + (2 ^ 64 - 1)) % 2 ^ 64

/-- Answer recording and grading (store.go `CreateAnswer`).  The bound check
compares against `int(questionPos-1)`; positions `0` and
`len(Answers)+1` slip past it and reach an out-of-range slice index
(`panicked`).  In the correct-text branch `Result` is incremented before
the panicking index. -/
def CreateAnswer (s : Store) (attemptID questionPos : Nat) (text : String)
    (now : Nat) : Res Answer :=
  match CheckDeadline s attemptID now with
  | some e => .err e s
  | none =>
  match findKey attemptID s.attempts with
  | none => .err "attempt not found" s
  | some attempt =>
  match findKey attempt.TestID s.tests with
  | none => .err "test not found" s
  | some test =>
  let idx := u64Sub1 questionPos
  if (attempt.Answers.length : Int) < int64OfUInt64 idx then
    .err "question position out of range" s
  else
    if hq : idx < test.Questions.length then
      let question := test.Questions.get ⟨idx, hq⟩
      if text = question.TrueAnswer then
        let attempt1 := { attempt with Result := attempt.Result + question.MaxScore }
        let s1 := { s with attempts := setKey attemptID attempt1 s.attempts }
        if ha : idx < attempt1.Answers.length then
          let a1 := { attempt1.Answers.get ⟨idx, ha⟩ with
                        RightOrNot := true, Text := text, CreatedAt := now }
          let attempt2 := { attempt1 with Answers := attempt1.Answers.set idx a1 }
          .ok a1 { s with attempts := setKey attemptID attempt2 s.attempts }
        else
          .panicked s1
      else
        if ha : idx < attempt.Answers.length then
          let a1 := { attempt.Answers.get ⟨idx, ha⟩ with
                        RightOrNot := false, Text := text, CreatedAt := now }
          let attempt2 := { attempt with Answers := attempt.Answers.set idx a1 }
          .ok a1 { s with attempts := setKey attemptID attempt2 s.attempts }
        else
          .panicked s
    else
      .panicked s

/-- Attempt submission (store.go `SubmitAttempt`). -/
def SubmitAttempt (s : Store) (attemptID now : Nat) : Res Attempt :=
  match CheckDeadline s attemptID now with
  | some e => .err e s
  | none =>
  match findKey attemptID s.attempts with
  | none => .panicked s
  | some attempt =>
  if attempt.Status ≠ "started" then
    .err "attempt closed" s
  else
    let attempt1 := { attempt with Status := "submitted", FinishedAt := now }
    .ok attempt1 { s with attempts := setKey attemptID attempt1 s.attempts }

/-- Attempt lookup (store.go `GetAttemptByID`). -/
def GetAttemptByID (s : Store) (attemptID : Nat) : Option Attempt :=
  findKey attemptID s.attempts

/-- Composite key of an AI-thread binding: `attemptID*1000 +
questionPosition` (store.go `CreateAIThread`). -/
def threadKey (attemptID questionPosition : Nat) : Nat :=
  attemptID * 1000 + questionPosition

/-- AI-thread binding creation (store.go `CreateAIThread`); position 1 may
always be rebound, other positions conflict with an existing binding. -/
def CreateAIThread (s : Store) (attemptID questionPosition : Nat)
    (threadID : String) (now : Nat) : Res AIThread :=
  match findKey attemptID s.attempts with
  | none => .err "attempt not found" s
  | some attempt =>
  if attempt.Answers.length < questionPosition ∨ questionPosition = 0 then
    .err "invalid question position" s
  else
    let key := threadKey attemptID questionPosition
    if questionPosition ≠ 1 ∧ (findKey key s.aiThreads).isSome then
      .err "thread already exists for this question" s
    else
      let thread : AIThread :=
        { AttemptID := attemptID, ThreadID := threadID, Status := "active", CreatedAt := now }
      .ok thread { s with aiThreads := setKey key thread s.aiThreads }

/-- Access-code creation (store.go `CreateAccessCode`). -/
def CreateAccessCode (s : Store) (code : String) (testID : Nat)
    (maxUses expiresAt : Option Nat) (now : Nat) : Res AccessCode :=
  if (findKey testID s.tests).isNone then
    .err "test not found" s
  else if (findKey code s.accessCodes).isSome then
    .err "access code already exists" s
  else
    let accessCode : AccessCode :=
      { Code := code, TestID := testID, MaxUses := maxUses, UsedCount := 0
        ExpiresAt := expiresAt, CreatedAt := now }
    .ok accessCode { s with accessCodes := setKey code accessCode s.accessCodes }

/-- Access-code validation and consumption (store.go
`ValidateAccessCode`). -/
def ValidateAccessCode (s : Store) (code : String) (testID now : Nat) : Res Unit :=
  match findKey code s.accessCodes with
  | none => .err "invalid access code" s
  | some accessCode =>
  if accessCode.TestID ≠ testID then
    .err "access code is not valid for this test" s
  else if (match accessCode.ExpiresAt with
           | some e => decide (e < now)
           | none => false) then
    .err "access code has expired" s
  else if (match accessCode.MaxUses with
           | some m => decide (m ≤ accessCode.UsedCount)
           | none => false) then
    .err "access code usage limit reached" s
  else
    let accessCode1 := { accessCode with UsedCount := accessCode.UsedCount + 1 }
    .ok () { s with accessCodes := setKey code accessCode1 s.accessCodes }

/-- Catalog questions loaded at startup (store.go `InitFillStore`). -/
def catalogQuestions : List Question :=
  [ { ID := 1, Name := ""
      Text := "Посчитать точное количество гласных букв в гимне Российской федерации\n\t\t\t\t\t\tза вычетом буквы \x27о\x27, ответ вывести по такой формуле\n\t\t\t\t\t\tX (количество гласных букв) - Y (количество   букв \x27о\x27) = Z"
      TrueAnswer := "270", MaxScore := 10 }
  , { ID := 2, Name := ""
      Text := "Определи что за источник, напиши точную дату публикации и время выхода новости:\n\t\t\t\t\t\t\x27С января по сентябрь самая высокая доходность в рублях была у корпоративных облигаций.\n\t\t\t\t\t\t Но отдельно по итогам сентября на первое место по доходности вышел другой актив\x27"
      TrueAnswer := "РБК", MaxScore := 10 }
  , { ID := 3, Name := ""
      Text := "Рассчитать  beta = Cov (Ra, Rp)/Var(Ra) для невозобновляемых ресурсов в монголии\n\t\t\t\t\t\t по 5 разным показателям на основе данных на 2025 год world bank group"
      TrueAnswer := "2334", MaxScore := 10 }
  , { ID := 4, Name := ""
      Text := "расставь знаки припинания: научно-технический прогресс не социальный принесёт счастья если не будет дополняться чрезвычайно глубокими изменениями в социальной нравственной и культурной жизни человечества внутреннюю духовную жизнь людей внутренние импульсы их активности трудней всего прогнозировать но именно от этого зависит в конечном итоге и гибель и спасение цивилизации"
      TrueAnswer := "Научно-технический прогресс не социальный принесёт счастья, если не будет дополняться чрезвычайно глубокими изменениями в социальной, нравственной и культурной жизни человечества. Внутреннюю духовную жизнь людей, внутренние импульсы их активности трудней всего прогнозировать, но именно от этого зависит в конечном итоге и гибель, и спасение цивилизации."
      MaxScore := 10 }
  , { ID := 5, Name := ""
      Text := "В комнате находятся Анна, Борис, Василий и Галина. Известно,\n1. Если Анна не брала конфету, то её взял Борис\n2. Если Василий не брал конфету, то Галина тоже её не брала\n3. Ровно один человек взял конфету"
      TrueAnswer := "анна взяла конфету", MaxScore := 10 }
  , { ID := 6, Name := ""
      Text := "Двойная звезда имеет период Т = 3 года, а расстояние L между ее компонентами равно двум астрономическим единицам. Вырази массу звезды через массу Солнца и сократи до 2 знака после запятой"
      TrueAnswer := "0,89", MaxScore := 10 }
  , { ID := 7, Name := ""
      Text := "Какая была ключевая ставка ЦБ РФ 22.08.1995"
      TrueAnswer := "180", MaxScore := 10 } ]

/-- The catalog test loaded at startup (store.go `InitFillStore`);
`TimeLimit` is one hour in nanoseconds. -/
def catalogTest : Test :=
  { ID := 1, Name := "test 1", Description := "description for test 1"
    TimeLimit := 3600 * 1000000000, MaxScore := 100
    Questions := catalogQuestions, NumOfQuestions := 4 }

/-- Startup bootstrap (store.go `InitFillStore`): seed user, catalog test,
and the unlimited access code. -/
def InitFillStore (s : Store) (hashed : String) (now : Nat) : Except String Store :=
  match CreateUser s "user@test.test" "test" hashed now with
  | .err e _ => .error ("init fill store: " ++ e)
  | .panicked _ => .error "init fill store: panic"
  | .ok _ s1 =>
    let s2 := { s1 with tests := setKey catalogTest.ID catalogTest s1.tests }
    match CreateAccessCode s2 "TEST-2025-INFINITY" catalogTest.ID none none now with
    | .err e _ => .error ("init fill store: failed to create access code: " ++ e)
    | .panicked _ => .error "init fill store: panic"
    | .ok _ s3 => .ok s3

/-- The store as loaded at startup, for one concrete choice of the bcrypt
and clock oracles. -/
def loadedStore : Store :=
  match InitFillStore NewStore "bcrypt-digest" 0 with
  | .ok s => s
  | _ => NewStore

/-- One state-changing store operation together with its oracle inputs
(clock, randomness, bcrypt digest, session token). -/
inductive Op where
  | createUser (email password hashed : String) (now : Nat)
  | createAttempt (testID userID now : Nat) (rnd : Nat → Nat)
  | createSession (userID : Nat) (token : String)
  | deleteSession (token : String)
  | createAnswer (attemptID questionPos : Nat) (text : String) (now : Nat)
  | submitAttempt (attemptID now : Nat)
  | createAIThread (attemptID questionPosition : Nat) (threadID : String) (now : Nat)
  | createAccessCode (code : String) (testID : Nat) (maxUses expiresAt : Option Nat) (now : Nat)
  | validateAccessCode (code : String) (testID now : Nat)

/-- Forget an operation's return value, keeping outcome and store. -/
def Res.toUnit : Res α → Res Unit
  | .ok _ s => .ok () s
  | .err e s => .err e s
  | .panicked s => .panicked s

/-- Run one operation on a store. -/
def runOp (s : Store) : Op → Res Unit
  | .createUser email password hashed now => (CreateUser s email password hashed now).toUnit
  | .createAttempt testID userID now rnd => (CreateAttempt s testID userID now rnd).toUnit
  | .createSession userID token => .ok () (CreateSession s userID token).2
  | .deleteSession token => .ok () (DeleteSession s token)
  | .createAnswer attemptID questionPos text now =>
      (CreateAnswer s attemptID questionPos text now).toUnit
  | .submitAttempt attemptID now => (SubmitAttempt s attemptID now).toUnit
  | .createAIThread attemptID questionPosition threadID now =>
      (CreateAIThread s attemptID questionPosition threadID now).toUnit
  | .createAccessCode code testID maxUses expiresAt now =>
      (CreateAccessCode s code testID maxUses expiresAt now).toUnit
  | .validateAccessCode code testID now => (ValidateAccessCode s code testID now).toUnit

/-- The store left behind by one operation. -/
def applyOp (s : Store) (o : Op) : Store := (runOp s o).state

/-- Run a sequence of operations. -/
def runOps (s : Store) (ops : List Op) : Store := ops.foldl applyOp s

/-- A store state reachable from `s₀` by some operation sequence. -/
def Reachable (s₀ s : Store) : Prop := ∃ ops : List Op, runOps s₀ ops = s

/-- Placeholder attempt used only as the default of out-of-range reads in
the sorting loop below; the loop never reads out of range. -/
def dummyAttempt : Attempt :=
  { ID := 0, UserID := 0, TestID := 0, Status := "", Answers := [], Result := 0
    StartedAt := 0, FinishedAt := 0 }

/-- One comparison step of the history sort (store.go
`GetUserAttemptHistory`): swap positions `i` and `j` when
`history[i].FinishedAt.Before(history[j].FinishedAt)`. -/
def swapIfLess (l : List Attempt) (i j : Nat) : List Attempt :=
  if (l.getD i dummyAttempt).FinishedAt < (l.getD j dummyAttempt).FinishedAt then
    listSwap l i j
  else l

theorem length_swapIfLess (l : List Attempt) (i j : Nat) :
    (swapIfLess l i j).length = l.length := by
  unfold swapIfLess
  split
  · exact length_listSwap l i j
  · rfl

/-- Inner loop of the history sort: `for j := i+1; j < len; j++`. -/
def innerLoop (i j : Nat) (l : List Attempt) : List Attempt :=
  if h : j < l.length then
    innerLoop i (j + 1) (swapIfLess l i j)
  else l
termination_by l.length - j
decreasing_by
  rw [length_swapIfLess]
  omega

theorem length_innerLoop (i j : Nat) (l : List Attempt) :
    (innerLoop i j l).length = l.length := by
  induction j, l using innerLoop.induct i with
  | case1 j l h ih =>
    rw [innerLoop, dif_pos h, ih, length_swapIfLess]
  | case2 j l h =>
    rw [innerLoop, dif_neg h]

/-- Outer loop of the history sort: `for i := 0; i < len; i++`. -/
def outerLoop (i : Nat) (l : List Attempt) : List Attempt :=
  if h : i < l.length then
    outerLoop (i + 1) (innerLoop i (i + 1) l)
  else l
termination_by l.length - i
decreasing_by
  rw [length_innerLoop]
  omega

/-- The descending sort of store.go `GetUserAttemptHistory`. -/
def sortHistory (l : List Attempt) : List Attempt := outerLoop 0 l

/-- Values of the attempts map, in iteration order. -/
def attemptValues (s : Store) : List Attempt := s.attempts.map Prod.snd

/-- The filter step of store.go `GetUserAttemptHistory`. -/
def historyFilter (s : Store) (userID testID : Nat) : List Attempt :=
  (attemptValues s).filter fun a =>
    a.UserID == userID && a.TestID == testID && a.Status == "submitted"

/-- Attempt history (store.go `GetUserAttemptHistory`): submitted attempts
of the given user and test, sorted by `FinishedAt` descending. -/
def GetUserAttemptHistory (s : Store) (userID testID : Nat) : Except String (List Attempt) :=
  if (findKey testID s.tests).isNone then .error "test not found"
  else .ok (sortHistory (historyFilter s userID testID))

theorem getD_listSwap_ne (l : List α) (i j k : Nat) (hki : k ≠ i) (hkj : k ≠ j) (d : α) :
    (listSwap l i j).getD k d = l.getD k d := by
  unfold listSwap
  split
  · next h =>
    obtain ⟨hi, hj⟩ := h
    by_cases hk : k < l.length
    · rw [List.getD_eq_getElem _ _ (by simpa using hk), List.getD_eq_getElem _ _ hk,
        List.getElem_set_ne (Ne.symm hkj), List.getElem_set_ne (Ne.symm hki)]
    · rw [List.getD_eq_getElem?_getD, List.getD_eq_getElem?_getD,
        List.getElem?_eq_none (by simpa using Nat.le_of_not_lt hk),
        List.getElem?_eq_none (Nat.le_of_not_lt hk)]
  · rfl

theorem getD_listSwap_left (l : List α) (i j : Nat) (hi : i < l.length)
    (hj : j < l.length) (d : α) : (listSwap l i j).getD i d = l.getD j d := by
  unfold listSwap
  rw [dif_pos ⟨hi, hj⟩]
  by_cases hij : i = j
  · subst hij
    rw [List.getD_eq_getElem _ _ (by simpa using hi), List.getD_eq_getElem _ _ hi,
      List.getElem_set_self]
    rfl
  · rw [List.getD_eq_getElem _ _ (by simpa using hi), List.getD_eq_getElem _ _ hj,
      List.getElem_set_ne (fun h => hij h.symm), List.getElem_set_self]
    rfl

theorem getD_listSwap_right (l : List α) (i j : Nat) (hi : i < l.length)
    (hj : j < l.length) (d : α) : (listSwap l i j).getD j d = l.getD i d := by
  unfold listSwap
  rw [dif_pos ⟨hi, hj⟩]
  rw [List.getD_eq_getElem _ _ (by simpa using hj), List.getD_eq_getElem _ _ hi,
    List.getElem_set_self]
  rfl

theorem drop_perm_of_perm_of_take_eq (l₁ l : List Attempt) (i : Nat)
    (hp : l₁.Perm l) (hlen : l₁.length = l.length)
    (hpre : ∀ k, k < i → l₁.getD k dummyAttempt = l.getD k dummyAttempt) :
    (l₁.drop i).Perm (l.drop i) := by
  have htake : l₁.take i = l.take i := by
    apply List.ext_getElem
    · simp [hlen]
    · intro n h₁ h₂
      rw [List.getElem_take, List.getElem_take]
      have hn : n < l₁.length := by
        simp only [List.length_take] at h₁
        omega
      have hn' : n < l.length := hlen ▸ hn
      have hni : n < i := by
        simp only [List.length_take] at h₁
        omega
      have hkey := hpre n hni
      rwa [List.getD_eq_getElem _ _ hn, List.getD_eq_getElem _ _ hn'] at hkey
  have hsplit : (l₁.take i ++ l₁.drop i).Perm (l.take i ++ l.drop i) := by
    rw [List.take_append_drop, List.take_append_drop]
    exact hp
  rw [htake] at hsplit
  exact (List.perm_append_left_iff _).mp hsplit

theorem getD_mem_drop (l : List Attempt) (i k : Nat) (hik : i ≤ k)
    (hk : k < l.length) : l.getD k dummyAttempt ∈ l.drop i := by
  obtain ⟨m, rfl⟩ : ∃ m, k = i + m := ⟨k - i, by omega⟩
  have hlt : m < (l.drop i).length := by
    simp only [List.length_drop]
    omega
  refine List.mem_iff_getElem.mpr ⟨m, hlt, ?_⟩
  rw [List.getElem_drop, List.getD_eq_getElem _ _ hk]

theorem mem_drop_of_mem_drop_succ {x : Attempt} {l : List Attempt} {i : Nat}
    (h : x ∈ l.drop (i + 1)) : x ∈ l.drop i := by
  have hdd : l.drop (i + 1) = (l.drop i).drop 1 := by
    rw [List.drop_drop]
  rw [hdd] at h
  exact List.drop_subset _ _ h

theorem mem_drop_exists_getD {x : Attempt} {l : List Attempt} {i : Nat}
    (h : x ∈ l.drop i) : ∃ k, i ≤ k ∧ k < l.length ∧ l.getD k dummyAttempt = x := by
  obtain ⟨m, hm, heq⟩ := List.mem_iff_getElem.mp h
  have hlen : i + m < l.length := by
    simp only [List.length_drop] at hm
    omega
  refine ⟨i + m, by omega, hlen, ?_⟩
  rw [List.getD_eq_getElem _ _ hlen]
  rw [List.getElem_drop] at heq
  exact heq

theorem swapIfLess_perm (l : List Attempt) (i j : Nat) :
    (swapIfLess l i j).Perm l := by
  unfold swapIfLess
  split
  · exact listSwap_perm _ _ _
  · exact List.Perm.refl l

theorem getD_swapIfLess_ne (l : List Attempt) (i j k : Nat) (hki : k ≠ i)
    (hkj : k ≠ j) :
    (swapIfLess l i j).getD k dummyAttempt = l.getD k dummyAttempt := by
  unfold swapIfLess
  split
  · exact getD_listSwap_ne l i j k hki hkj _
  · rfl

theorem innerLoop_perm (i j : Nat) (l : List Attempt) :
    (innerLoop i j l).Perm l := by
  induction j, l using innerLoop.induct i with
  | case1 j l h ih =>
    rw [innerLoop, dif_pos h]
    exact ih.trans (swapIfLess_perm l i j)
  | case2 j l h =>
    rw [innerLoop, dif_neg h]

theorem innerLoop_getD_lt (i k : Nat) (hki : k ≠ i) (j : Nat) (l : List Attempt) :
    k < j → (innerLoop i j l).getD k dummyAttempt = l.getD k dummyAttempt := by
  induction j, l using innerLoop.induct i with
  | case1 j l h ih =>
    intro hkj
    rw [innerLoop, dif_pos h, ih (by omega), getD_swapIfLess_ne l i j k hki (by omega)]
  | case2 j l h =>
    intro hkj
    rw [innerLoop, dif_neg h]

theorem innerLoop_getD_le_self (i j : Nat) (l : List Attempt) :
    i < j →
    (l.getD i dummyAttempt).FinishedAt ≤
      ((innerLoop i j l).getD i dummyAttempt).FinishedAt := by
  induction j, l using innerLoop.induct i with
  | case1 j l h ih =>
    intro hij
    rw [innerLoop, dif_pos h]
    refine le_trans ?_ (ih (by omega))
    unfold swapIfLess
    split
    · next hlt =>
      rw [getD_listSwap_left l i j (by omega) h]
      exact le_of_lt hlt
    · exact le_refl _
  | case2 j l h =>
    intro hij
    rw [innerLoop, dif_neg h]

theorem innerLoop_max (i j : Nat) (l : List Attempt) :
    i < j → ∀ k, j ≤ k → k < (innerLoop i j l).length →
    ((innerLoop i j l).getD k dummyAttempt).FinishedAt ≤
      ((innerLoop i j l).getD i dummyAttempt).FinishedAt := by
  induction j, l using innerLoop.induct i with
  | case1 j l h ih =>
    intro hij k hjk hk
    rw [innerLoop, dif_pos h] at hk ⊢
    by_cases hkj : k = j
    · subst hkj
      rw [innerLoop_getD_lt i k (by omega) (k + 1) _ (by omega)]
      have hstep : ((swapIfLess l i k).getD k dummyAttempt).FinishedAt ≤
          ((swapIfLess l i k).getD i dummyAttempt).FinishedAt := by
        unfold swapIfLess
        split
        · next hlt =>
          rw [getD_listSwap_left l i k (by omega) h,
            getD_listSwap_right l i k (by omega) h]
          exact le_of_lt hlt
        · next hnlt => exact Nat.le_of_not_lt hnlt
      exact le_trans hstep (innerLoop_getD_le_self i (k + 1) _ (by omega))
    · exact ih (by omega) k (by omega) hk
  | case2 j l h =>
    intro hij k hjk hk
    rw [innerLoop, dif_neg h, ] at hk ⊢
    omega

theorem outerLoop_perm (i : Nat) (l : List Attempt) : (outerLoop i l).Perm l := by
  induction i, l using outerLoop.induct with
  | case1 i l h ih =>
    rw [outerLoop, dif_pos h]
    exact ih.trans (innerLoop_perm i (i + 1) l)
  | case2 i l h =>
    rw [outerLoop, dif_neg h]

theorem length_outerLoop (i : Nat) (l : List Attempt) :
    (outerLoop i l).length = l.length :=
  (outerLoop_perm i l).length_eq

theorem outerLoop_sorted (i : Nat) (l : List Attempt) :
    (∀ a b, a < b → b < i → b < l.length →
      (l.getD b dummyAttempt).FinishedAt ≤ (l.getD a dummyAttempt).FinishedAt) →
    (∀ a, a < i → ∀ x ∈ l.drop i,
      x.FinishedAt ≤ (l.getD a dummyAttempt).FinishedAt) →
    ∀ a b, a < b → b < (outerLoop i l).length →
      ((outerLoop i l).getD b dummyAttempt).FinishedAt ≤
        ((outerLoop i l).getD a dummyAttempt).FinishedAt := by
  induction i, l using outerLoop.induct with
  | case2 i l h =>
    intro hsort _hdom a b hab hb
    rw [outerLoop, dif_neg h] at hb ⊢
    exact hsort a b hab (by omega) hb
  | case1 i l h ih =>
    intro hsort hdom a b hab hb
    rw [outerLoop, dif_pos h] at hb ⊢
    have hlen1 : (innerLoop i (i + 1) l).length = l.length := length_innerLoop i (i + 1) l
    have hperm1 : (innerLoop i (i + 1) l).Perm l := innerLoop_perm i (i + 1) l
    have hpre : ∀ k, k < i →
        (innerLoop i (i + 1) l).getD k dummyAttempt = l.getD k dummyAttempt := by
      intro k hk
      exact innerLoop_getD_lt i k (by omega) (i + 1) l (by omega)
    have hdropPerm : ((innerLoop i (i + 1) l).drop i).Perm (l.drop i) :=
      drop_perm_of_perm_of_take_eq _ l i hperm1 hlen1 hpre
    have hiMem : (innerLoop i (i + 1) l).getD i dummyAttempt ∈ l.drop i := by
      refine hdropPerm.mem_iff.mp ?_
      exact getD_mem_drop _ i i (le_refl i) (by omega)
    refine ih ?_ ?_ a b hab hb
    · intro a' b' hab' hb'i hb'len
      by_cases hbi : b' < i
      · rw [hpre a' (by omega), hpre b' hbi]
        exact hsort a' b' hab' (by omega) (by omega)
      · have hbi' : b' = i := by omega
        subst hbi'
        rw [hpre a' (by omega)]
        exact hdom a' (by omega) _ hiMem
    · intro a' ha' x hx
      by_cases hai : a' < i
      · rw [hpre a' hai]
        have hx' : x ∈ l.drop i := hdropPerm.mem_iff.mp (mem_drop_of_mem_drop_succ hx)
        exact hdom a' hai x hx'
      · have hai' : a' = i := by omega
        subst hai'
        obtain ⟨k, hk1, hk2, hk3⟩ := mem_drop_exists_getD hx
        rw [← hk3]
        exact innerLoop_max a' (a' + 1) l (by omega) k (by omega) hk2

theorem findKey_setKey_cases [DecidableEq κ] {k k' : κ} {v w : ν} {m : List (κ × ν)}
    (h : findKey k' (setKey k v m) = some w) :
    (k' = k ∧ w = v) ∨ findKey k' m = some w := by
  by_cases hk : k = k'
  · subst hk
    rw [findKey_setKey_self] at h
    exact Or.inl ⟨rfl, (Option.some_inj.mp h).symm⟩
  · rw [findKey_setKey_ne hk] at h
    exact Or.inr h

/-- The tests of the second store are those of the first with each question
list permuted (the only way any operation ever touches the catalog). -/
def testsPerm (s s' : Store) : Prop :=
  ∀ tid : Nat,
    (findKey tid s.tests = none ∧ findKey tid s'.tests = none) ∨
    ∃ t t', findKey tid s.tests = some t ∧ findKey tid s'.tests = some t' ∧
      t'.Questions.Perm t.Questions

theorem testsPerm_refl (s : Store) : testsPerm s s := by
  intro tid
  cases h : findKey tid s.tests with
  | none => exact Or.inl ⟨rfl, rfl⟩
  | some t => exact Or.inr ⟨t, t, rfl, rfl, List.Perm.refl _⟩

theorem testsPerm_trans {s₁ s₂ s₃ : Store} (h12 : testsPerm s₁ s₂)
    (h23 : testsPerm s₂ s₃) : testsPerm s₁ s₃ := by
  intro tid
  rcases h12 tid with ⟨h1, h2⟩ | ⟨t, t', h1, h2, hp⟩
  · rcases h23 tid with ⟨h2', h3⟩ | ⟨u, u', h2', h3, hp'⟩
    · exact Or.inl ⟨h1, h3⟩
    · rw [h2] at h2'
      exact absurd h2' (by simp)
  · rcases h23 tid with ⟨h2', h3⟩ | ⟨u, u', h2', h3, hp'⟩
    · rw [h2] at h2'
      exact absurd h2' (by simp)
    · rw [h2] at h2'
      obtain rfl : t' = u := Option.some_inj.mp h2'
      exact Or.inr ⟨t, u', h1, h3, hp'.trans hp⟩

theorem testsPerm_of_eq {s s' : Store} (h : s'.tests = s.tests) : testsPerm s s' := by
  intro tid
  cases hl : findKey tid s.tests with
  | none => exact Or.inl ⟨rfl, by rw [h, hl]⟩
  | some t => exact Or.inr ⟨t, t, rfl, by rw [h, hl], List.Perm.refl _⟩

theorem tests_CreateUser (s : Store) (email password hashed : String) (now : Nat) :
    ((CreateUser s email password hashed now).state).tests = s.tests := by
  unfold CreateUser
  split <;> rfl

theorem tests_CreateAnswer (s : Store) (attemptID questionPos : Nat)
    (text : String) (now : Nat) :
    ((CreateAnswer s attemptID questionPos text now).state).tests = s.tests := by
  unfold CreateAnswer
  dsimp only
  split
  · rfl
  · split
    · rfl
    · split
      · rfl
      · split
        · rfl
        · split
          · split
            · split <;> rfl
            · split <;> rfl
          · rfl

theorem tests_SubmitAttempt (s : Store) (attemptID now : Nat) :
    ((SubmitAttempt s attemptID now).state).tests = s.tests := by
  unfold SubmitAttempt
  dsimp only
  split
  · rfl
  · split
    · rfl
    · split <;> rfl

theorem tests_CreateAIThread (s : Store) (attemptID questionPosition : Nat)
    (threadID : String) (now : Nat) :
    ((CreateAIThread s attemptID questionPosition threadID now).state).tests = s.tests := by
  unfold CreateAIThread
  dsimp only
  split
  · rfl
  · split
    · rfl
    · split <;> rfl

theorem tests_CreateAccessCode (s : Store) (code : String) (testID : Nat)
    (maxUses expiresAt : Option Nat) (now : Nat) :
    ((CreateAccessCode s code testID maxUses expiresAt now).state).tests = s.tests := by
  unfold CreateAccessCode
  dsimp only
  split
  · rfl
  · split <;> rfl

theorem tests_ValidateAccessCode (s : Store) (code : String) (testID now : Nat) :
    ((ValidateAccessCode s code testID now).state).tests = s.tests := by
  unfold ValidateAccessCode
  dsimp only
  split
  · rfl
  · split
    · rfl
    · split
      · rfl
      · split <;> rfl

theorem state_toUnit (r : Res α) : (r.toUnit).state = r.state := by
  cases r <;> rfl

theorem testsPerm_CreateAttempt (s : Store) (testID userID now : Nat)
    (rnd : Nat → Nat) :
    testsPerm s ((CreateAttempt s testID userID now rnd).state) := by
  unfold CreateAttempt
  cases hfind : findKey testID s.tests with
  | none => exact testsPerm_refl s
  | some test =>
    dsimp only [Res.state]
    intro tid
    by_cases htid : tid = testID
    · subst htid
      refine Or.inr ⟨test, _, hfind, findKey_setKey_self _ _ _, ?_⟩
      exact shuffleList_perm _ _
    · cases hl : findKey tid s.tests with
      | none =>
        exact Or.inl ⟨rfl, by
          show findKey tid (setKey testID _ s.tests) = none
          rw [findKey_setKey_ne (fun h => htid h.symm), hl]⟩
      | some t =>
        refine Or.inr ⟨t, t, rfl, ?_, List.Perm.refl _⟩
        show findKey tid (setKey testID _ s.tests) = some t
        rw [findKey_setKey_ne (fun h => htid h.symm), hl]

theorem testsPerm_applyOp (s : Store) (o : Op) : testsPerm s (applyOp s o) := by
  cases o with
  | createUser email password hashed now =>
    exact testsPerm_of_eq (by rw [applyOp, runOp, state_toUnit, tests_CreateUser])
  | createAttempt testID userID now rnd =>
    have h := testsPerm_CreateAttempt s testID userID now rnd
    rwa [applyOp, runOp, state_toUnit]
  | createSession userID token => exact testsPerm_of_eq rfl
  | deleteSession token => exact testsPerm_of_eq rfl
  | createAnswer attemptID questionPos text now =>
    exact testsPerm_of_eq (by rw [applyOp, runOp, state_toUnit, tests_CreateAnswer])
  | submitAttempt attemptID now =>
    exact testsPerm_of_eq (by rw [applyOp, runOp, state_toUnit, tests_SubmitAttempt])
  | createAIThread attemptID questionPosition threadID now =>
    exact testsPerm_of_eq (by rw [applyOp, runOp, state_toUnit, tests_CreateAIThread])
  | createAccessCode code testID maxUses expiresAt now =>
    exact testsPerm_of_eq (by rw [applyOp, runOp, state_toUnit, tests_CreateAccessCode])
  | validateAccessCode code testID now =>
    exact testsPerm_of_eq (by rw [applyOp, runOp, state_toUnit, tests_ValidateAccessCode])

theorem testsPerm_runOps (s : Store) (ops : List Op) : testsPerm s (runOps s ops) := by
  induction ops generalizing s with
  | nil => exact testsPerm_refl s
  | cons o rest ih =>
    exact testsPerm_trans (testsPerm_applyOp s o) (ih (applyOp s o))

/-- Question lists of all tests have fewer than 1000 entries. -/
def TestsBound (s : Store) : Prop :=
  ∀ tid t, findKey tid s.tests = some t → t.Questions.length ≤ 999

/-- Answer lists of all attempts have fewer than 1000 entries.  Together
with `TestsBound` this is an invariant of every reachable state; it makes
the AI-thread key `attemptID*1000 + questionPosition` injective on valid
positions. -/
def AnswersBound (s : Store) : Prop :=
  ∀ aid a, findKey aid s.attempts = some a → a.Answers.length ≤ 999

/-- The two bounds together. -/
def StoreInv (s : Store) : Prop := TestsBound s ∧ AnswersBound s

theorem StoreInv_of_eq {s s' : Store} (ht : s'.tests = s.tests)
    (ha : s'.attempts = s.attempts) (h : StoreInv s) : StoreInv s' := by
  obtain ⟨hT, hA⟩ := h
  exact ⟨fun tid t hx => hT tid t (by rwa [ht] at hx),
    fun aid a hx => hA aid a (by rwa [ha] at hx)⟩

theorem attempts_CreateUser (s : Store) (email password hashed : String) (now : Nat) :
    ((CreateUser s email password hashed now).state).attempts = s.attempts := by
  unfold CreateUser
  split <;> rfl

theorem attempts_CreateAIThread (s : Store) (attemptID questionPosition : Nat)
    (threadID : String) (now : Nat) :
    ((CreateAIThread s attemptID questionPosition threadID now).state).attempts
      = s.attempts := by
  unfold CreateAIThread
  dsimp only
  split
  · rfl
  · split
    · rfl
    · split <;> rfl

theorem attempts_CreateAccessCode (s : Store) (code : String) (testID : Nat)
    (maxUses expiresAt : Option Nat) (now : Nat) :
    ((CreateAccessCode s code testID maxUses expiresAt now).state).attempts
      = s.attempts := by
  unfold CreateAccessCode
  dsimp only
  split
  · rfl
  · split <;> rfl

theorem attempts_ValidateAccessCode (s : Store) (code : String) (testID now : Nat) :
    ((ValidateAccessCode s code testID now).state).attempts = s.attempts := by
  unfold ValidateAccessCode
  dsimp only
  split
  · rfl
  · split
    · rfl
    · split
      · rfl
      · split <;> rfl

theorem StoreInv_CreateAttempt (s : Store) (testID userID now : Nat)
    (rnd : Nat → Nat) (h : StoreInv s) :
    StoreInv ((CreateAttempt s testID userID now rnd).state) := by
  obtain ⟨hT, hA⟩ := h
  unfold CreateAttempt
  cases hfind : findKey testID s.tests with
  | none => exact ⟨hT, hA⟩
  | some test =>
    dsimp only [Res.state]
    constructor
    · intro tid t ht
      rcases findKey_setKey_cases ht with ⟨rfl, rfl⟩ | hold
      · show (getRandomQuestions test.Questions test.NumOfQuestions rnd).1.length ≤ 999
        unfold getRandomQuestions
        dsimp only
        rw [length_shuffleList]
        exact hT tid test hfind
      · exact hT tid t hold
    · intro aid a ha
      rcases findKey_setKey_cases ha with ⟨rfl, rfl⟩ | hold
      · show ((getRandomQuestions test.Questions test.NumOfQuestions rnd).2.map _).length ≤ 999
        rw [List.length_map]
        unfold getRandomQuestions
        dsimp only
        rw [List.length_take]
        have hb := hT testID test hfind
        have hlen : (shuffleList test.Questions rnd).length = test.Questions.length :=
          length_shuffleList _ _
        exact le_trans (Nat.min_le_right _ _) (by omega)
      · exact hA aid a hold

theorem StoreInv_CreateAnswer (s : Store) (attemptID questionPos : Nat)
    (text : String) (now : Nat) (h : StoreInv s) :
    StoreInv ((CreateAnswer s attemptID questionPos text now).state) := by
  obtain ⟨hT, hA⟩ := h
  unfold CreateAnswer
  dsimp only
  split
  · exact ⟨hT, hA⟩
  · split
    · exact ⟨hT, hA⟩
    · next attempt hatt =>
      split
      · exact ⟨hT, hA⟩
      · next test htst =>
        split
        · exact ⟨hT, hA⟩
        · split
          · split
            · split
              · refine ⟨hT, ?_⟩
                intro aid a ha
                rcases findKey_setKey_cases ha with ⟨rfl, rfl⟩ | hold
                · show (attempt.Answers.set _ _).length ≤ 999
                  rw [List.length_set]
                  exact hA _ attempt hatt
                · exact hA aid a hold
              · refine ⟨hT, ?_⟩
                intro aid a ha
                rcases findKey_setKey_cases ha with ⟨rfl, rfl⟩ | hold
                · exact hA _ attempt hatt
                · exact hA aid a hold
            · split
              · refine ⟨hT, ?_⟩
                intro aid a ha
                rcases findKey_setKey_cases ha with ⟨rfl, rfl⟩ | hold
                · show (attempt.Answers.set _ _).length ≤ 999
                  rw [List.length_set]
                  exact hA _ attempt hatt
                · exact hA aid a hold
              · exact ⟨hT, hA⟩
          · exact ⟨hT, hA⟩

theorem StoreInv_SubmitAttempt (s : Store) (attemptID now : Nat) (h : StoreInv s) :
    StoreInv ((SubmitAttempt s attemptID now).state) := by
  obtain ⟨hT, hA⟩ := h
  unfold SubmitAttempt
  dsimp only
  split
  · exact ⟨hT, hA⟩
  · split
    · exact ⟨hT, hA⟩
    · next attempt hatt =>
      split
      · exact ⟨hT, hA⟩
      · refine ⟨hT, ?_⟩
        intro aid a ha
        rcases findKey_setKey_cases ha with ⟨rfl, rfl⟩ | hold
        · exact hA _ attempt hatt
        · exact hA aid a hold

theorem StoreInv_applyOp (s : Store) (o : Op) (h : StoreInv s) :
    StoreInv (applyOp s o) := by
  cases o with
  | createUser email password hashed now =>
    exact StoreInv_of_eq (by rw [applyOp, runOp, state_toUnit, tests_CreateUser])
      (by rw [applyOp, runOp, state_toUnit, attempts_CreateUser]) h
  | createAttempt testID userID now rnd =>
    have hs := StoreInv_CreateAttempt s testID userID now rnd h
    rwa [applyOp, runOp, state_toUnit]
  | createSession userID token => exact StoreInv_of_eq rfl rfl h
  | deleteSession token => exact StoreInv_of_eq rfl rfl h
  | createAnswer attemptID questionPos text now =>
    have hs := StoreInv_CreateAnswer s attemptID questionPos text now h
    rwa [applyOp, runOp, state_toUnit]
  | submitAttempt attemptID now =>
    have hs := StoreInv_SubmitAttempt s attemptID now h
    rwa [applyOp, runOp, state_toUnit]
  | createAIThread attemptID questionPosition threadID now =>
    exact StoreInv_of_eq (by rw [applyOp, runOp, state_toUnit, tests_CreateAIThread])
      (by rw [applyOp, runOp, state_toUnit, attempts_CreateAIThread]) h
  | createAccessCode code testID maxUses expiresAt now =>
    exact StoreInv_of_eq (by rw [applyOp, runOp, state_toUnit, tests_CreateAccessCode])
      (by rw [applyOp, runOp, state_toUnit, attempts_CreateAccessCode]) h
  | validateAccessCode code testID now =>
    exact StoreInv_of_eq (by rw [applyOp, runOp, state_toUnit, tests_ValidateAccessCode])
      (by rw [applyOp, runOp, state_toUnit, attempts_ValidateAccessCode]) h

theorem StoreInv_runOps (s : Store) (ops : List Op) (h : StoreInv s) :
    StoreInv (runOps s ops) := by
  induction ops generalizing s with
  | nil => exact h
  | cons o rest ih => exact ih (applyOp s o) (StoreInv_applyOp s o h)

theorem StoreInv_reachable {s₀ s : Store} (h₀ : StoreInv s₀)
    (hr : Reachable s₀ s) : StoreInv s := by
  obtain ⟨ops, rfl⟩ := hr
  exact StoreInv_runOps s₀ ops h₀

theorem sortHistory_perm (l : List Attempt) : (sortHistory l).Perm l :=
  outerLoop_perm 0 l

theorem sortHistory_sorted (l : List Attempt) :
    List.Pairwise (fun a b => b.FinishedAt ≤ a.FinishedAt) (sortHistory l) := by
  rw [List.pairwise_iff_getElem]
  intro a b ha hb hab
  have hs := outerLoop_sorted 0 l
    (by intro a' b' _ hb' _; omega)
    (by intro a' ha' _ _; omega)
    a b hab (by simpa [sortHistory] using hb)
  rw [List.getD_eq_getElem _ _ (by simpa [sortHistory] using hb),
    List.getD_eq_getElem _ _ (by simpa [sortHistory] using ha)] at hs
  exact hs

/-- A successful outcome? -/
def Res.isOk : Res α → Bool
  | .ok _ _ => true
  | _ => false

theorem u64Sub1_small {p : Nat} (hp1 : 1 ≤ p) (hp : p < 2 ^ 63) :
    u64Sub1 p = p - 1 := by
  unfold u64Sub1
  omega

theorem int64OfUInt64_small {x : Nat} (hx : x < 2 ^ 63) :
    int64OfUInt64 x = (x : Int) := by
  unfold int64OfUInt64
  rw [if_pos hx]

/-- The store after one catalog-loading attempt: the seed store plus one
fresh attempt on test 1 with the identity randomness (which leaves the
question order unchanged). -/
def storeWithAttempt : Store :=
  runOps loadedStore [Op.createAttempt 1 1 0 (fun i => i)]

/-- The seed store after creating an attempt and submitting it within the
deadline. -/
def storeSubmitted : Store :=
  runOps loadedStore [Op.createAttempt 1 1 0 (fun i => i), Op.submitAttempt 1 1]

/-- C1 (counterexample): the claim "every Test's Questions list keeps the
same elements in the same order as at load time" is false — one
`CreateAttempt` call, with a randomness oracle that always answers 0,
reorders test 1's stored question list, because `getRandomQuestions`
shuffles the test's slice in place. -/
theorem C1_counterexample :
    ((findKey 1 (runOps loadedStore [Op.createAttempt 1 1 0 (fun _ => 0)]).tests).map
        fun t => t.Questions.map Question.ID) ≠
      some [1, 2, 3, 4, 5, 6, 7] ∧
    ((findKey 1 loadedStore.tests).map fun t => t.Questions.map Question.ID) =
      some [1, 2, 3, 4, 5, 6, 7] :=
  ⟨by decide, by decide⟩

set_option maxRecDepth 100000 in
/-- C1 (amended): after the catalog is loaded, every operation sequence
preserves each Test's Questions list as a multiset — the same elements,
though `CreateAttempt`'s in-place shuffle may reorder them. -/
theorem C1_amended_questions_permuted (s₀ : Store) (ops : List Op) (tid : Nat)
    (t t' : Test) (h : findKey tid s₀.tests = some t)
    (h' : findKey tid (runOps s₀ ops).tests = some t') :
    t'.Questions.Perm t.Questions := by
  rcases testsPerm_runOps s₀ ops tid with ⟨h1, h2⟩ | ⟨u, u', h1, h2, hp⟩
  · rw [h] at h1
    cases h1
  · rw [h] at h1
    obtain rfl := Option.some_inj.mp h1
    rw [h'] at h2
    obtain rfl := Option.some_inj.mp h2
    exact hp

/-- Witness for C1 (amended): the loaded catalog and the state after one
attempt creation with the all-zeros randomness oracle. -/
theorem C1_amended_witness :
    findKey 1 loadedStore.tests = some catalogTest ∧
    findKey 1 (runOps loadedStore [Op.createAttempt 1 1 0 (fun _ => 0)]).tests =
      some { catalogTest with Questions := shuffleList catalogQuestions (fun _ => 0) } ∧
    (shuffleList catalogQuestions (fun _ => 0)).Perm catalogTest.Questions :=
  ⟨by decide, by decide,
    C1_amended_questions_permuted loadedStore [Op.createAttempt 1 1 0 (fun _ => 0)] 1
      catalogTest { catalogTest with Questions := shuffleList catalogQuestions (fun _ => 0) }
      (by decide) (by decide)⟩

set_option maxRecDepth 100000 in
/-- C2 (code bug): on an attempt with 4 answer slots over a 7-question
test, `questionPosition = 5` (one past the answer count) and
`questionPosition = 0` slip past the `len(Answers) < int(questionPos-1)`
check and panic on an out-of-range slice index instead of returning the
OutOfRange error; position 6 is rejected, positions 1 and 4 are accepted.
With the correct answer text at position 5, `Result` is even incremented
before the panic. -/
theorem C2_out_of_range_panics :
    CreateAnswer storeWithAttempt 1 5 "w" 1 = .panicked storeWithAttempt ∧
    CreateAnswer storeWithAttempt 1 0 "w" 1 = .panicked storeWithAttempt ∧
    CreateAnswer storeWithAttempt 1 6 "w" 1
      = .err "question position out of range" storeWithAttempt ∧
    Res.isOk (CreateAnswer storeWithAttempt 1 1 "w" 1) = true ∧
    Res.isOk (CreateAnswer storeWithAttempt 1 4 "w" 1) = true ∧
    Res.isOk (CreateAnswer storeWithAttempt 1 5 "анна взяла конфету" 1) = false ∧
    (CreateAnswer storeWithAttempt 1 5 "анна взяла конфету" 1).state ≠ storeWithAttempt :=
  ⟨by decide, by decide, by decide, by decide, by decide, by decide, by decide⟩

set_option maxRecDepth 100000 in
/-- C5: for an existing test, `CreateAttempt` returns an attempt with
`min(requiredQuestionCount, number of questions)` empty-text answers and
status started; for a missing test it fails with the not-found error. -/
theorem C5_attempt_creation (s : Store) (testID userID now : Nat) (rnd : Nat → Nat) :
    (findKey testID s.tests = none →
      CreateAttempt s testID userID now rnd = .err "test not found" s) ∧
    (∀ t, findKey testID s.tests = some t →
      ∃ att s', CreateAttempt s testID userID now rnd = .ok att s' ∧
        att.Answers.length = min t.NumOfQuestions t.Questions.length ∧
        (∀ a ∈ att.Answers, a.Text = "") ∧
        att.Status = "started") := by
  constructor
  · intro h
    unfold CreateAttempt
    rw [h]
  · intro t ht
    unfold CreateAttempt
    rw [ht]
    dsimp only
    refine ⟨_, _, rfl, ?_, ?_, rfl⟩
    · show ((getRandomQuestions t.Questions t.NumOfQuestions rnd).2.map _).length = _
      rw [List.length_map]
      unfold getRandomQuestions
      dsimp only
      rw [List.length_take, length_shuffleList]
      by_cases hgt : t.NumOfQuestions > t.Questions.length
      · rw [if_pos hgt, Nat.min_self, Nat.min_eq_right (le_of_lt hgt)]
      · rw [if_neg hgt]
    · intro a ha
      dsimp only at ha
      rw [List.mem_map] at ha
      obtain ⟨q, _, rfl⟩ := ha
      rfl

/-- Witness for C5: on the loaded catalog the attempt gets
`min 4 7 = 4` answers. -/
theorem C5_attempt_creation_witness :
    ∃ att s', CreateAttempt loadedStore 1 7 0 (fun i => i) = .ok att s' ∧
      att.Answers.length = min catalogTest.NumOfQuestions catalogTest.Questions.length ∧
      (∀ a ∈ att.Answers, a.Text = "") ∧
      att.Status = "started" :=
  (C5_attempt_creation loadedStore 1 7 0 (fun i => i)).2 catalogTest (by decide)

theorem toUnit_err_inv {r : Res α} {e : String} {s' : Store}
    (h : r.toUnit = .err e s') : r = .err e s' := by
  cases r with
  | ok a st => exact Res.noConfusion h
  | err e' st =>
    injection h with h1 h2
    rw [h1, h2]
  | panicked st => exact Res.noConfusion h

theorem err_CreateUser {s : Store} {email password hashed : String} {now : Nat}
    {e : String} {s' : Store}
    (h : CreateUser s email password hashed now = .err e s') : s' = s := by
  unfold CreateUser at h
  split at h
  · injection h with h1 h2
    exact h2.symm
  · exact Res.noConfusion h

theorem err_CreateAttempt {s : Store} {testID userID now : Nat} {rnd : Nat → Nat}
    {e : String} {s' : Store}
    (h : CreateAttempt s testID userID now rnd = .err e s') : s' = s := by
  unfold CreateAttempt at h
  split at h
  · injection h with h1 h2
    exact h2.symm
  · exact Res.noConfusion h

theorem err_CreateAnswer {s : Store} {attemptID questionPos : Nat} {text : String}
    {now : Nat} {e : String} {s' : Store}
    (h : CreateAnswer s attemptID questionPos text now = .err e s') : s' = s := by
  unfold CreateAnswer at h
  dsimp only at h
  split at h
  · injection h with h1 h2
    exact h2.symm
  · split at h
    · injection h with h1 h2
      exact h2.symm
    · split at h
      · injection h with h1 h2
        exact h2.symm
      · split at h
        · injection h with h1 h2
          exact h2.symm
        · split at h
          · split at h
            · split at h
              · exact Res.noConfusion h
              · exact Res.noConfusion h
            · split at h
              · exact Res.noConfusion h
              · exact Res.noConfusion h
          · exact Res.noConfusion h

theorem err_SubmitAttempt {s : Store} {attemptID now : Nat} {e : String} {s' : Store}
    (h : SubmitAttempt s attemptID now = .err e s') : s' = s := by
  unfold SubmitAttempt at h
  dsimp only at h
  split at h
  · injection h with h1 h2
    exact h2.symm
  · split at h
    · exact Res.noConfusion h
    · split at h
      · injection h with h1 h2
        exact h2.symm
      · exact Res.noConfusion h

theorem err_CreateAIThread {s : Store} {attemptID questionPosition : Nat}
    {threadID : String} {now : Nat} {e : String} {s' : Store}
    (h : CreateAIThread s attemptID questionPosition threadID now = .err e s') :
    s' = s := by
  unfold CreateAIThread at h
  dsimp only at h
  split at h
  · injection h with h1 h2
    exact h2.symm
  · split at h
    · injection h with h1 h2
      exact h2.symm
    · split at h
      · injection h with h1 h2
        exact h2.symm
      · exact Res.noConfusion h

theorem err_CreateAccessCode {s : Store} {code : String} {testID : Nat}
    {maxUses expiresAt : Option Nat} {now : Nat} {e : String} {s' : Store}
    (h : CreateAccessCode s code testID maxUses expiresAt now = .err e s') :
    s' = s := by
  unfold CreateAccessCode at h
  dsimp only at h
  split at h
  · injection h with h1 h2
    exact h2.symm
  · split at h
    · injection h with h1 h2
      exact h2.symm
    · exact Res.noConfusion h

theorem err_ValidateAccessCode {s : Store} {code : String} {testID now : Nat}
    {e : String} {s' : Store}
    (h : ValidateAccessCode s code testID now = .err e s') : s' = s := by
  unfold ValidateAccessCode at h
  dsimp only at h
  split at h
  · injection h with h1 h2
    exact h2.symm
  · split at h
    · injection h with h1 h2
      exact h2.symm
    · split at h
      · injection h with h1 h2
        exact h2.symm
      · split at h
        · injection h with h1 h2
          exact h2.symm
        · exact Res.noConfusion h

/-- C7: failure atomicity — whenever any store operation returns a Go
error, the store it leaves behind is exactly the store it was given; in
particular `ValidateAccessCode` does not increment `usedCount` on any of
its failure paths. -/
theorem C7_failure_atomicity (s : Store) (o : Op) (e : String) (s' : Store)
    (h : runOp s o = .err e s') : s' = s := by
  cases o with
  | createUser email password hashed now =>
    exact err_CreateUser (toUnit_err_inv h)
  | createAttempt testID userID now rnd =>
    exact err_CreateAttempt (toUnit_err_inv h)
  | createSession userID token => exact Res.noConfusion h
  | deleteSession token => exact Res.noConfusion h
  | createAnswer attemptID questionPos text now =>
    exact err_CreateAnswer (toUnit_err_inv h)
  | submitAttempt attemptID now =>
    exact err_SubmitAttempt (toUnit_err_inv h)
  | createAIThread attemptID questionPosition threadID now =>
    exact err_CreateAIThread (toUnit_err_inv h)
  | createAccessCode code testID maxUses expiresAt now =>
    exact err_CreateAccessCode (toUnit_err_inv h)
  | validateAccessCode code testID now =>
    exact err_ValidateAccessCode (toUnit_err_inv h)

/-- Witness for C7: validating an unknown access code on the loaded store
fails and leaves the store unchanged. -/
theorem C7_failure_atomicity_witness :
    runOp loadedStore (Op.validateAccessCode "missing" 1 0) =
      Res.err "invalid access code" loadedStore ∧ loadedStore = loadedStore :=
  ⟨by decide,
    C7_failure_atomicity loadedStore (Op.validateAccessCode "missing" 1 0)
      "invalid access code" loadedStore (by decide)⟩

/-- C10: every successful `CreateAttempt` increments the user-id counter
`nextUserID` by one (while leaving the users map itself untouched), so a
`CreateUser` immediately afterwards allocates `nextUserID + 1` and the id
`nextUserID` is skipped — ids stay monotonically increasing but are not
consecutive, and `CreateAttempt`'s effects are not confined to the
attempts map. -/
theorem C10_attempt_bumps_user_counter (s : Store) (testID userID now : Nat)
    (rnd : Nat → Nat) (att : Attempt) (s' : Store)
    (h : CreateAttempt s testID userID now rnd = .ok att s') :
    s'.nextUserID = s.nextUserID + 1 ∧ s'.users = s.users ∧
    (∀ email password hashed now' u s'',
      CreateUser s' email password hashed now' = .ok u s'' →
      u.ID = s.nextUserID + 1 ∧ u.ID ≠ s.nextUserID) := by
  unfold CreateAttempt at h
  cases hfind : findKey testID s.tests with
  | none =>
    rw [hfind] at h
    exact Res.noConfusion h
  | some test =>
    rw [hfind] at h
    dsimp only at h
    injection h with h1 h2
    subst h1
    subst h2
    refine ⟨rfl, rfl, ?_⟩
    intro email password hashed now' u s'' h''
    unfold CreateUser at h''
    split at h''
    · exact Res.noConfusion h''
    · injection h'' with h3 h4
      subst h3
      exact ⟨rfl, by simp⟩

/-- Witness for C10: creating an attempt on the loaded store takes the
counter from 2 to 3. -/
theorem C10_attempt_bumps_user_counter_witness :
    ∃ att s', CreateAttempt loadedStore 1 1 0 (fun i => i) = .ok att s' ∧
      s'.nextUserID = loadedStore.nextUserID + 1 ∧ s'.users = loadedStore.users := by
  cases hres : CreateAttempt loadedStore 1 1 0 (fun i => i) with
  | ok att s' =>
    have h := C10_attempt_bumps_user_counter loadedStore 1 1 0 (fun i => i) att s' hres
    exact ⟨att, s', rfl, h.1, h.2.1⟩
  | err e st =>
    have hok : Res.isOk (CreateAttempt loadedStore 1 1 0 (fun i => i)) = true := by decide
    rw [hres] at hok
    exact absurd hok (by simp [Res.isOk])
  | panicked st =>
    have hok : Res.isOk (CreateAttempt loadedStore 1 1 0 (fun i => i)) = true := by decide
    rw [hres] at hok
    exact absurd hok (by simp [Res.isOk])

theorem ValidateAccessCode_succeeds (s : Store) (code : String) (testID now : Nat)
    (ac : AccessCode) (hfind : findKey code s.accessCodes = some ac)
    (htid : ac.TestID = testID)
    (hexp : ∀ e, ac.ExpiresAt = some e → now ≤ e)
    (hmu : ∀ m, ac.MaxUses = some m → ac.UsedCount < m) :
    ValidateAccessCode s code testID now =
      .ok () ({ s with
        accessCodes := setKey code ({ ac with UsedCount := ac.UsedCount + 1 }) s.accessCodes }) := by
  unfold ValidateAccessCode
  rw [hfind]
  dsimp only
  rw [if_neg (by simp [htid])]
  have hexp' : (match ac.ExpiresAt with
      | some e => decide (e < now)
      | none => false) = false := by
    cases he : ac.ExpiresAt with
    | none => rfl
    | some e => simpa using Nat.not_lt.mpr (hexp e he)
  have hmu' : (match ac.MaxUses with
      | some m => decide (m ≤ ac.UsedCount)
      | none => false) = false := by
    cases hm : ac.MaxUses with
    | none => rfl
    | some m => simpa using Nat.not_le.mpr (hmu m hm)
  rw [hexp', hmu']
  rfl

theorem ValidateAccessCode_limit (s : Store) (code : String) (testID now : Nat)
    (ac : AccessCode) (m : Nat) (hfind : findKey code s.accessCodes = some ac)
    (htid : ac.TestID = testID)
    (hexp : ∀ e, ac.ExpiresAt = some e → now ≤ e)
    (hmu : ac.MaxUses = some m) (hge : m ≤ ac.UsedCount) :
    ValidateAccessCode s code testID now =
      .err "access code usage limit reached" s := by
  unfold ValidateAccessCode
  rw [hfind]
  dsimp only
  rw [if_neg (by simp [htid])]
  have hexp' : (match ac.ExpiresAt with
      | some e => decide (e < now)
      | none => false) = false := by
    cases he : ac.ExpiresAt with
    | none => rfl
    | some e => simpa using Nat.not_lt.mpr (hexp e he)
  have hmu' : (match ac.MaxUses with
      | some m' => decide (m' ≤ ac.UsedCount)
      | none => false) = true := by
    rw [hmu]
    simpa using hge
  rw [hexp', hmu']
  rfl

theorem metering_two_uses (s0 : Store) (code : String) (testID : Nat)
    (ac : AccessCode) (now1 now2 now3 : Nat)
    (hfind : findKey code s0.accessCodes = some ac)
    (htid : ac.TestID = testID) (hmu : ac.MaxUses = some 2)
    (huc : ac.UsedCount = 0)
    (hexp1 : ∀ e, ac.ExpiresAt = some e → now1 ≤ e)
    (hexp2 : ∀ e, ac.ExpiresAt = some e → now2 ≤ e)
    (hexp3 : ∀ e, ac.ExpiresAt = some e → now3 ≤ e) :
    ∃ s1 s2,
      ValidateAccessCode s0 code testID now1 = .ok () s1 ∧
      (∃ ac1, findKey code s1.accessCodes = some ac1 ∧ ac1.UsedCount = 1) ∧
      ValidateAccessCode s1 code testID now2 = .ok () s2 ∧
      (∃ ac2, findKey code s2.accessCodes = some ac2 ∧ ac2.UsedCount = 2) ∧
      ValidateAccessCode s2 code testID now3 =
        .err "access code usage limit reached" s2 := by
  have hv1 := ValidateAccessCode_succeeds s0 code testID now1 ac hfind htid hexp1
    (fun m hm => by
      rw [hmu] at hm
      obtain rfl := Option.some_inj.mp hm
      omega)
  have hv2 := ValidateAccessCode_succeeds
    ({ s0 with
      accessCodes := setKey code ({ ac with UsedCount := ac.UsedCount + 1 }) s0.accessCodes })
    code testID now2 ({ ac with UsedCount := ac.UsedCount + 1 })
    (findKey_setKey_self _ _ _) htid
    (fun e he => hexp2 e he)
    (fun m hm => by
      have hm' : ac.MaxUses = some m := hm
      rw [hmu] at hm'
      obtain rfl := Option.some_inj.mp hm'
      show ac.UsedCount + 1 < 2
      omega)
  have hv3 := ValidateAccessCode_limit
    ({ s0 with
      accessCodes := setKey code ({ ac with UsedCount := ac.UsedCount + 1 + 1 })
        (setKey code ({ ac with UsedCount := ac.UsedCount + 1 }) s0.accessCodes) })
    code testID now3 ({ ac with UsedCount := ac.UsedCount + 1 + 1 }) 2
    (findKey_setKey_self _ _ _) htid
    (fun e he => hexp3 e he)
    hmu (by
      show 2 ≤ ac.UsedCount + 1 + 1
      omega)
  refine ⟨_, _, hv1, ⟨_, findKey_setKey_self _ _ _, ?_⟩, hv2,
    ⟨_, findKey_setKey_self _ _ _, ?_⟩, hv3⟩
  · show ac.UsedCount + 1 = 1
    omega
  · show ac.UsedCount + 1 + 1 = 2
    omega

/-- C6: an access code created with `maxUses = 2` validates successfully
exactly twice — the first success takes `usedCount` to 1, the second to 2
— and the third validation fails with the limit-reached error, leaving
the store unchanged.  (The code must not have expired at any of the three
calls; an expired code fails earlier with the expiry error.) -/
theorem C6_access_code_metering (s : Store) (code : String) (testID : Nat)
    (expiresAt : Option Nat) (now0 now1 now2 now3 : Nat) (ac : AccessCode) (s0 : Store)
    (hcreate : CreateAccessCode s code testID (some 2) expiresAt now0 = .ok ac s0)
    (hexp1 : ∀ e, expiresAt = some e → now1 ≤ e)
    (hexp2 : ∀ e, expiresAt = some e → now2 ≤ e)
    (hexp3 : ∀ e, expiresAt = some e → now3 ≤ e) :
    ∃ s1 s2,
      ValidateAccessCode s0 code testID now1 = .ok () s1 ∧
      (∃ ac1, findKey code s1.accessCodes = some ac1 ∧ ac1.UsedCount = 1) ∧
      ValidateAccessCode s1 code testID now2 = .ok () s2 ∧
      (∃ ac2, findKey code s2.accessCodes = some ac2 ∧ ac2.UsedCount = 2) ∧
      ValidateAccessCode s2 code testID now3 =
        .err "access code usage limit reached" s2 := by
  unfold CreateAccessCode at hcreate
  split at hcreate
  · exact Res.noConfusion hcreate
  · split at hcreate
    · exact Res.noConfusion hcreate
    · injection hcreate with h1 h2
      subst h1
      subst h2
      exact metering_two_uses _ code testID _ now1 now2 now3
        (findKey_setKey_self _ _ _) rfl rfl rfl hexp1 hexp2 hexp3

/-- Witness for C6: a fresh non-expiring two-use code on the loaded
store. -/
theorem C6_access_code_metering_witness :
    ∃ ac s0 s1 s2,
      CreateAccessCode loadedStore "CODE-2" 1 (some 2) none 3 = .ok ac s0 ∧
      ValidateAccessCode s0 "CODE-2" 1 4 = .ok () s1 ∧
      (∃ ac1, findKey "CODE-2" s1.accessCodes = some ac1 ∧ ac1.UsedCount = 1) ∧
      ValidateAccessCode s1 "CODE-2" 1 5 = .ok () s2 ∧
      (∃ ac2, findKey "CODE-2" s2.accessCodes = some ac2 ∧ ac2.UsedCount = 2) ∧
      ValidateAccessCode s2 "CODE-2" 1 6 =
        .err "access code usage limit reached" s2 := by
  cases hres : CreateAccessCode loadedStore "CODE-2" 1 (some 2) none 3 with
  | ok ac s0 =>
    obtain ⟨s1, s2, h1, h2, h3, h4, h5⟩ :=
      C6_access_code_metering loadedStore "CODE-2" 1 none 3 4 5 6 ac s0 hres
        (by intro e he; cases he) (by intro e he; cases he) (by intro e he; cases he)
    exact ⟨ac, s0, s1, s2, rfl, h1, h2, h3, h4, h5⟩
  | err e st =>
    have hok : Res.isOk (CreateAccessCode loadedStore "CODE-2" 1 (some 2) none 3) = true := by
      decide
    rw [hres] at hok
    exact absurd hok (by simp [Res.isOk])
  | panicked st =>
    have hok : Res.isOk (CreateAccessCode loadedStore "CODE-2" 1 (some 2) none 3) = true := by
      decide
    rw [hres] at hok
    exact absurd hok (by simp [Res.isOk])

/-- Placeholder answer for out-of-range `getD` reads in statements; never
actually read in range-checked positions. -/
def dummyAnswer : Answer :=
  { ID := 0, QuestionID := 0, Text := "", RightOrNot := false, CreatedAt := 0 }

theorem CheckDeadline_cond {s : Store} {aid now : Nat} {att : Attempt} {test : Test}
    (hatt : findKey aid s.attempts = some att)
    (htst : findKey att.TestID s.tests = some test)
    (hdl : CheckDeadline s aid now = none) :
    ¬(0 < test.TimeLimit ∧ att.StartedAt + test.TimeLimit < now) := by
  unfold CheckDeadline at hdl
  rw [hatt] at hdl
  dsimp only at hdl
  rw [htst] at hdl
  dsimp only at hdl
  by_cases hc : 0 < test.TimeLimit ∧ att.StartedAt + test.TimeLimit < now
  · rw [if_pos hc] at hdl
    cases hdl
  · exact hc

theorem CheckDeadline_none_of {s : Store} {aid now : Nat} {att : Attempt} {test : Test}
    (hatt : findKey aid s.attempts = some att)
    (htst : findKey att.TestID s.tests = some test)
    (hcond : ¬(0 < test.TimeLimit ∧ att.StartedAt + test.TimeLimit < now)) :
    CheckDeadline s aid now = none := by
  unfold CheckDeadline
  rw [hatt]
  dsimp only
  rw [htst]
  dsimp only
  rw [if_neg hcond]

theorem CheckDeadline_timeout {s : Store} {aid now : Nat} {att : Attempt} {test : Test}
    (hatt : findKey aid s.attempts = some att)
    (htst : findKey att.TestID s.tests = some test)
    (hpos : 0 < test.TimeLimit) (hlate : att.StartedAt + test.TimeLimit < now) :
    CheckDeadline s aid now = some "test attempt timeout" := by
  unfold CheckDeadline
  rw [hatt]
  dsimp only
  rw [htst]
  dsimp only
  rw [if_pos ⟨hpos, hlate⟩]

theorem CreateAnswer_ok_wrong (s : Store) (aid pos : Nat) (text : String) (now : Nat)
    (att : Attempt) (test : Test)
    (hdl : CheckDeadline s aid now = none)
    (hatt : findKey aid s.attempts = some att)
    (htst : findKey att.TestID s.tests = some test)
    (hp1 : 1 ≤ pos) (hp63 : pos < 2 ^ 63)
    (hpa : pos ≤ att.Answers.length)
    (hq : pos - 1 < test.Questions.length)
    (hwrong : text ≠ (test.Questions.get ⟨pos - 1, hq⟩).TrueAnswer) :
    CreateAnswer s aid pos text now =
      .ok ({ att.Answers.get ⟨pos - 1, by omega⟩ with
              RightOrNot := false, Text := text, CreatedAt := now })
        ({ s with
          attempts := setKey aid ({ att with
            Answers := att.Answers.set (pos - 1)
              ({ att.Answers.get ⟨pos - 1, by omega⟩ with
                RightOrNot := false, Text := text, CreatedAt := now }) }) s.attempts }) := by
  unfold CreateAnswer
  rw [hdl]
  dsimp only
  rw [hatt]
  dsimp only
  rw [htst]
  dsimp only
  rw [u64Sub1_small hp1 hp63, int64OfUInt64_small (by omega)]
  rw [if_neg (by
    rw [not_lt]
    exact_mod_cast Nat.sub_le_of_le_add (by omega))]
  rw [dif_pos hq]
  rw [if_neg hwrong]
  rw [dif_pos (show pos - 1 < att.Answers.length by omega)]

theorem CreateAnswer_ok_correct (s : Store) (aid pos : Nat) (now : Nat)
    (att : Attempt) (test : Test)
    (hdl : CheckDeadline s aid now = none)
    (hatt : findKey aid s.attempts = some att)
    (htst : findKey att.TestID s.tests = some test)
    (hp1 : 1 ≤ pos) (hp63 : pos < 2 ^ 63)
    (hpa : pos ≤ att.Answers.length)
    (hq : pos - 1 < test.Questions.length) :
    CreateAnswer s aid pos (test.Questions.get ⟨pos - 1, hq⟩).TrueAnswer now =
      .ok ({ att.Answers.get ⟨pos - 1, by omega⟩ with
              RightOrNot := true,
              Text := (test.Questions.get ⟨pos - 1, hq⟩).TrueAnswer,
              CreatedAt := now })
        ({ s with
          attempts := setKey aid ({ att with
            Result := att.Result + (test.Questions.get ⟨pos - 1, hq⟩).MaxScore,
            Answers := att.Answers.set (pos - 1)
              ({ att.Answers.get ⟨pos - 1, by omega⟩ with
                RightOrNot := true,
                Text := (test.Questions.get ⟨pos - 1, hq⟩).TrueAnswer,
                CreatedAt := now }) }) s.attempts }) := by
  unfold CreateAnswer
  rw [hdl]
  dsimp only
  rw [hatt]
  dsimp only
  rw [htst]
  dsimp only
  rw [u64Sub1_small hp1 hp63, int64OfUInt64_small (by omega)]
  rw [if_neg (by
    rw [not_lt]
    exact_mod_cast Nat.sub_le_of_le_add (by omega))]
  rw [dif_pos hq]
  rw [if_pos rfl]
  rw [dif_pos (show pos - 1 < att.Answers.length by omega)]

/-- C4: within the deadline, submitting the text equal to the correct
answer of the question the call grades against (the Question at
`questionPos-1` of the test's current question list) returns a correct
Answer and increases `Result` by exactly that question's max-score; a
subsequent call on the same position with any wrong text marks the
Answer incorrect but leaves `Result` unchanged (in particular it never
decreases). -/
theorem C4_grading (s : Store) (aid pos now : Nat) (att : Attempt) (test : Test)
    (hdl : CheckDeadline s aid now = none)
    (hatt : findKey aid s.attempts = some att)
    (htst : findKey att.TestID s.tests = some test)
    (hp1 : 1 ≤ pos) (hp63 : pos < 2 ^ 63)
    (hpa : pos ≤ att.Answers.length)
    (hq : pos - 1 < test.Questions.length) :
    ∃ ans s',
      CreateAnswer s aid pos (test.Questions.get ⟨pos - 1, hq⟩).TrueAnswer now =
        .ok ans s' ∧
      ans.RightOrNot = true ∧
      (∃ att', findKey aid s'.attempts = some att' ∧
        att'.Result = att.Result + (test.Questions.get ⟨pos - 1, hq⟩).MaxScore) ∧
      (∀ text', text' ≠ (test.Questions.get ⟨pos - 1, hq⟩).TrueAnswer →
        ∃ ans' s'', CreateAnswer s' aid pos text' now = .ok ans' s'' ∧
          ans'.RightOrNot = false ∧
          ∃ att'', findKey aid s''.attempts = some att'' ∧
            att''.Result = att.Result + (test.Questions.get ⟨pos - 1, hq⟩).MaxScore) := by
  have h1 := CreateAnswer_ok_correct s aid pos now att test hdl hatt htst hp1 hp63 hpa hq
  refine ⟨_, _, h1, rfl, ⟨_, findKey_setKey_self _ _ _, rfl⟩, ?_⟩
  intro text' hwrong'
  have hcond := CheckDeadline_cond hatt htst hdl
  have hwok := CreateAnswer_ok_wrong
    ({ s with attempts := setKey aid ({ att with
        Result := att.Result + (test.Questions.get ⟨pos - 1, hq⟩).MaxScore,
        Answers := att.Answers.set (pos - 1)
          ({ att.Answers.get ⟨pos - 1, by omega⟩ with
            RightOrNot := true,
            Text := (test.Questions.get ⟨pos - 1, hq⟩).TrueAnswer,
            CreatedAt := now }) }) s.attempts })
    aid pos text' now
    ({ att with
        Result := att.Result + (test.Questions.get ⟨pos - 1, hq⟩).MaxScore,
        Answers := att.Answers.set (pos - 1)
          ({ att.Answers.get ⟨pos - 1, by omega⟩ with
            RightOrNot := true,
            Text := (test.Questions.get ⟨pos - 1, hq⟩).TrueAnswer,
            CreatedAt := now }) })
    test
    (CheckDeadline_none_of (findKey_setKey_self _ _ _) htst hcond)
    (findKey_setKey_self _ _ _) htst hp1 hp63
    (by simpa using hpa) hq hwrong'
  exact ⟨_, _, hwok, rfl, _, findKey_setKey_self _ _ _, rfl⟩

/-- The attempt that `storeWithAttempt` contains (identity randomness, so
the first four catalog questions in order). -/
def seedAttempt : Attempt :=
  { ID := 1, UserID := 1, TestID := 1, Status := "started"
    Answers :=
      [ { ID := 1, QuestionID := 1, Text := "", RightOrNot := false, CreatedAt := 0 }
      , { ID := 2, QuestionID := 2, Text := "", RightOrNot := false, CreatedAt := 0 }
      , { ID := 3, QuestionID := 3, Text := "", RightOrNot := false, CreatedAt := 0 }
      , { ID := 4, QuestionID := 4, Text := "", RightOrNot := false, CreatedAt := 0 } ]
    Result := 0, StartedAt := 0, FinishedAt := 0 }

/-- Witness for C4: answering question 1 ("270") at position 1. -/
theorem C4_grading_witness :
    ∃ ans s',
      CreateAnswer storeWithAttempt 1 1
        (catalogTest.Questions.get ⟨0, by decide⟩).TrueAnswer 1 = .ok ans s' ∧
      ans.RightOrNot = true ∧
      (∃ att', findKey 1 s'.attempts = some att' ∧
        att'.Result = seedAttempt.Result +
          (catalogTest.Questions.get ⟨0, by decide⟩).MaxScore) ∧
      (∀ text', text' ≠ (catalogTest.Questions.get ⟨0, by decide⟩).TrueAnswer →
        ∃ ans' s'', CreateAnswer s' 1 1 text' 1 = .ok ans' s'' ∧
          ans'.RightOrNot = false ∧
          ∃ att'', findKey 1 s''.attempts = some att'' ∧
            att''.Result = seedAttempt.Result +
              (catalogTest.Questions.get ⟨0, by decide⟩).MaxScore) :=
  C4_grading storeWithAttempt 1 1 1 seedAttempt catalogTest (by decide) (by decide)
    (by decide) (by decide) (by decide) (by decide) (by decide)

/-- C3 (counterexample): after `SubmitAttempt`, a `CreateAnswer` within
the deadline still succeeds and mutates the attempt — it overwrites the
answer text and adds to `Result` — because `CreateAnswer` never checks
the status. -/
theorem C3_counterexample :
    Res.isOk (CreateAnswer storeSubmitted 1 1 "270" 2) = true ∧
    ((findKey 1 storeSubmitted.attempts).map Attempt.Status) = some "submitted" ∧
    ((findKey 1 storeSubmitted.attempts).map Attempt.Result) = some 0 ∧
    ((findKey 1 (CreateAnswer storeSubmitted 1 1 "270" 2).state.attempts).map
        Attempt.Result) = some 10 ∧
    ((findKey 1 (CreateAnswer storeSubmitted 1 1 "270" 2).state.attempts).map
        (fun a => a.Answers.map Answer.Text)) ≠
      ((findKey 1 storeSubmitted.attempts).map (fun a => a.Answers.map Answer.Text)) :=
  ⟨by decide, by decide, by decide, by decide, by decide⟩

/-- C3 (amended): the terminal `submitted` status only blocks a second
`SubmitAttempt` (Conflict); `CreateAnswer` never inspects the status, so
an answer's text and correctness can still change after submission as
long as the deadline has not passed — answer immutability is enforced
solely by the deadline, whose expiry makes `CreateAnswer` fail with the
timeout error and leave the store unchanged. -/
theorem C3_amended (s : Store) (aid now : Nat) (att : Attempt) :
    (CheckDeadline s aid now = none → findKey aid s.attempts = some att →
      att.Status = "submitted" → SubmitAttempt s aid now = .err "attempt closed" s) ∧
    (∀ test pos text, CheckDeadline s aid now = none →
      findKey aid s.attempts = some att →
      findKey att.TestID s.tests = some test →
      att.Status = "submitted" →
      1 ≤ pos → pos < 2 ^ 63 → pos ≤ att.Answers.length →
      ∀ (hq : pos - 1 < test.Questions.length),
      text ≠ (test.Questions.get ⟨pos - 1, hq⟩).TrueAnswer →
      ∃ ans s', CreateAnswer s aid pos text now = .ok ans s' ∧ ans.Text = text ∧
        ∃ att', findKey aid s'.attempts = some att' ∧
          (att'.Answers.getD (pos - 1) dummyAnswer).Text = text) ∧
    (∀ test pos text, findKey aid s.attempts = some att →
      findKey att.TestID s.tests = some test →
      0 < test.TimeLimit → att.StartedAt + test.TimeLimit < now →
      CreateAnswer s aid pos text now = .err "test attempt timeout" s) := by
  refine ⟨?_, ?_, ?_⟩
  · intro hdl hatt hst
    unfold SubmitAttempt
    rw [hdl]
    dsimp only
    rw [hatt]
    dsimp only
    rw [if_pos (by
      rw [hst]
      decide)]
  · intro test pos text hdl hatt htst _hst hp1 hp63 hpa hq hwrong
    refine ⟨_, _, CreateAnswer_ok_wrong s aid pos text now att test hdl hatt htst
      hp1 hp63 hpa hq hwrong, rfl, _, findKey_setKey_self _ _ _, ?_⟩
    have hlen : pos - 1 < (att.Answers.set (pos - 1)
        ({ att.Answers.get ⟨pos - 1, by omega⟩ with
          RightOrNot := false, Text := text, CreatedAt := now })).length := by
      rw [List.length_set]
      omega
    show ((att.Answers.set (pos - 1) _).getD (pos - 1) dummyAnswer).Text = text
    rw [List.getD_eq_getElem _ _ hlen, List.getElem_set_self]
  · intro test pos text hatt htst hpos hlate
    unfold CreateAnswer
    rw [CheckDeadline_timeout hatt htst hpos hlate]

/-- The submitted attempt that `storeSubmitted` contains. -/
def submittedAttempt : Attempt :=
  { seedAttempt with Status := "submitted", FinishedAt := 1 }

/-- Witness for C3 (amended): on the submitted attempt, re-submission is
rejected but a wrong answer at position 1 is still recorded. -/
theorem C3_amended_witness :
    SubmitAttempt storeSubmitted 1 2 = .err "attempt closed" storeSubmitted ∧
    (∃ ans s', CreateAnswer storeSubmitted 1 1 "wrong" 2 = .ok ans s' ∧
      ans.Text = "wrong" ∧
      ∃ att', findKey 1 s'.attempts = some att' ∧
        (att'.Answers.getD 0 dummyAnswer).Text = "wrong") :=
  ⟨(C3_amended storeSubmitted 1 2 submittedAttempt).1 (by decide) (by decide) (by decide),
    (C3_amended storeSubmitted 1 2 submittedAttempt).2.1 catalogTest 1 "wrong"
      (by decide) (by decide) (by decide) (by decide) (by decide) (by decide)
      (by decide) (by decide) (by decide)⟩

/-- C9: `GetUserAttemptHistory` fails with the not-found error for a
missing test; otherwise it returns exactly the attempts of the given user
and test with status submitted (started attempts never appear), as a
permutation of the filtered attempts, ordered by `FinishedAt`
descending. -/
theorem C9_attempt_history (s : Store) (userID testID : Nat) :
    (findKey testID s.tests = none →
      GetUserAttemptHistory s userID testID = .error "test not found") ∧
    (∀ t, findKey testID s.tests = some t →
      ∃ l, GetUserAttemptHistory s userID testID = .ok l ∧
        l.Perm (historyFilter s userID testID) ∧
        (∀ a, a ∈ l ↔ (a ∈ attemptValues s ∧ a.UserID = userID ∧ a.TestID = testID ∧
          a.Status = "submitted")) ∧
        List.Pairwise (fun a b => b.FinishedAt ≤ a.FinishedAt) l) := by
  constructor
  · intro h
    unfold GetUserAttemptHistory
    rw [h]
    rfl
  · intro t ht
    unfold GetUserAttemptHistory
    rw [ht]
    refine ⟨_, rfl, sortHistory_perm _, ?_, sortHistory_sorted _⟩
    intro a
    rw [(sortHistory_perm _).mem_iff]
    unfold historyFilter
    rw [List.mem_filter]
    simp [and_assoc]

/-- Witness for C9: the loaded store has no attempts yet, so test 1's
history is the empty filter result. -/
theorem C9_attempt_history_witness :
    ∃ l, GetUserAttemptHistory loadedStore 1 1 = .ok l ∧
      l.Perm (historyFilter loadedStore 1 1) ∧
      (∀ a, a ∈ l ↔ (a ∈ attemptValues loadedStore ∧ a.UserID = 1 ∧ a.TestID = 1 ∧
        a.Status = "submitted")) ∧
      List.Pairwise (fun a b => b.FinishedAt ≤ a.FinishedAt) l :=
  (C9_attempt_history loadedStore 1 1).2 catalogTest (by decide)

theorem loadedStore_tests_eq : loadedStore.tests = [(1, catalogTest)] := by decide

theorem loadedStore_attempts_eq : loadedStore.attempts = [] := by decide

theorem loadedStore_inv : StoreInv loadedStore := by
  constructor
  · intro tid t h
    rw [loadedStore_tests_eq] at h
    unfold findKey at h
    split at h
    · obtain rfl : catalogTest = t := Option.some_inj.mp h
      decide
    · unfold findKey at h
      cases h
  · intro aid a h
    rw [loadedStore_attempts_eq] at h
    unfold findKey at h
    cases h

/-- C8: in every reachable store state (from a bounded initial state such
as the loaded one), the AI-thread key `attemptID*1000 + questionPosition`
is injective on valid positions, so there is at most one binding per
(attempt, position) pair and distinct pairs never collide; for a position
other than 1 an existing binding makes `CreateAIThread` fail with the
conflict error and leave the store unchanged, while position 1 may always
be rebound, replacing the previous binding; a pair without a binding can
always be bound, and a successful binding never touches any other
pair's binding. -/
theorem C8_ai_thread_bindings (s₀ s : Store) (h₀ : StoreInv s₀)
    (hr : Reachable s₀ s) :
    (∀ a p a' p' att att', findKey a s.attempts = some att →
      1 ≤ p → p ≤ att.Answers.length →
      findKey a' s.attempts = some att' →
      1 ≤ p' → p' ≤ att'.Answers.length →
      threadKey a p = threadKey a' p' → a = a' ∧ p = p') ∧
    (∀ a p tid now att, findKey a s.attempts = some att →
      1 ≤ p → p ≤ att.Answers.length → p ≠ 1 →
      (findKey (threadKey a p) s.aiThreads).isSome →
      CreateAIThread s a p tid now =
        .err "thread already exists for this question" s) ∧
    (∀ a tid now att, findKey a s.attempts = some att →
      1 ≤ att.Answers.length →
      ∃ th s', CreateAIThread s a 1 tid now = .ok th s' ∧
        findKey (threadKey a 1) s'.aiThreads = some th ∧ th.ThreadID = tid) ∧
    (∀ a p tid now att, findKey a s.attempts = some att →
      1 ≤ p → p ≤ att.Answers.length →
      findKey (threadKey a p) s.aiThreads = none →
      ∃ th s', CreateAIThread s a p tid now = .ok th s') ∧
    (∀ a p tid now th s', CreateAIThread s a p tid now = .ok th s' →
      ∀ k, k ≠ threadKey a p →
        findKey k s'.aiThreads = findKey k s.aiThreads) := by
  have hA : AnswersBound s := (StoreInv_reachable h₀ hr).2
  refine ⟨?_, ?_, ?_, ?_, ?_⟩
  · intro a p a' p' att att' hatt hp1 hpa hatt' hp1' hpa' hkey
    have hb : att.Answers.length ≤ 999 := hA a att hatt
    have hb' : att'.Answers.length ≤ 999 := hA a' att' hatt'
    unfold threadKey at hkey
    omega
  · intro a p tid now att hatt hp1 hpa hpne hsome
    unfold CreateAIThread
    rw [hatt]
    dsimp only
    rw [if_neg (by omega)]
    rw [if_pos ⟨hpne, hsome⟩]
  · intro a tid now att hatt hlen
    unfold CreateAIThread
    rw [hatt]
    dsimp only
    rw [if_neg (by omega)]
    rw [if_neg (by simp)]
    exact ⟨_, _, rfl, findKey_setKey_self _ _ _, rfl⟩
  · intro a p tid now att hatt hp1 hpa hnone
    unfold CreateAIThread
    rw [hatt]
    dsimp only
    rw [if_neg (by omega)]
    rw [if_neg (by simp [hnone])]
    exact ⟨_, _, rfl⟩
  · intro a p tid now th s' h k hk
    unfold CreateAIThread at h
    dsimp only at h
    split at h
    · exact Res.noConfusion h
    · split at h
      · exact Res.noConfusion h
      · split at h
        · exact Res.noConfusion h
        · injection h with h1 h2
          subst h2
          exact findKey_setKey_ne (fun he => hk he.symm) _ _

/-- Witness for C8: the loaded store itself is reachable (empty operation
sequence) and satisfies the bound invariant. -/
theorem C8_ai_thread_bindings_witness :
    (∀ a p a' p' att att', findKey a loadedStore.attempts = some att →
      1 ≤ p → p ≤ att.Answers.length →
      findKey a' loadedStore.attempts = some att' →
      1 ≤ p' → p' ≤ att'.Answers.length →
      threadKey a p = threadKey a' p' → a = a' ∧ p = p') ∧
    (∀ a p tid now att, findKey a loadedStore.attempts = some att →
      1 ≤ p → p ≤ att.Answers.length → p ≠ 1 →
      (findKey (threadKey a p) loadedStore.aiThreads).isSome →
      CreateAIThread loadedStore a p tid now =
        .err "thread already exists for this question" loadedStore) ∧
    (∀ a tid now att, findKey a loadedStore.attempts = some att →
      1 ≤ att.Answers.length →
      ∃ th s', CreateAIThread loadedStore a 1 tid now = .ok th s' ∧
        findKey (threadKey a 1) s'.aiThreads = some th ∧ th.ThreadID = tid) ∧
    (∀ a p tid now att, findKey a loadedStore.attempts = some att →
      1 ≤ p → p ≤ att.Answers.length →
      findKey (threadKey a p) loadedStore.aiThreads = none →
      ∃ th s', CreateAIThread loadedStore a p tid now = .ok th s') ∧
    (∀ a p tid now th s', CreateAIThread loadedStore a p tid now = .ok th s' →
      ∀ k, k ≠ threadKey a p →
        findKey k s'.aiThreads = findKey k loadedStore.aiThreads) :=
  C8_ai_thread_bindings loadedStore loadedStore loadedStore_inv ⟨[], rfl⟩

end GeekBack
